import Mathlib

/-!
Verification development for the `folderwatcher` repository.

The Go sources are shallowly embedded:
* `internal/watcher/watcher.go` (debounced variant): operation bitmasks,
  events, `Event.IsSameWriteEventAs`, the per-event step of
  `FSNotifyWatcher.Watch` including its event log, the purge sweep, the
  callback dispatch loop, and `FSNotifyWatcher.AddCallbacks`;
* `cmd/watcher/config.go`: `getFileAttributes`, `getFolderAttributes`,
  `CheckSizeAndFrame`, over a small regex engine embedding Go's
  leftmost-first `regexp` matching for the pattern shapes used by the
  configuration.

Machine integers are modelled by `Nat` (the `Op` bitmask) and `Int`
(timestamps in nanoseconds); fallible operations return `Option` or a sum
of outcomes.  All definitions are executable.
-/

namespace Folderwatcher

/-! ### Operations and events (`internal/watcher/watcher.go`) -/

/-- `CreateOp Op = 1 << iota` — identical to `fsnotify.Create`. -/
def createOp : Nat := 1

/-- `WriteOp` — identical to `fsnotify.Write`. -/
def writeOp : Nat := 2

/-- `RemoveOp` — identical to `fsnotify.Remove`. -/
def removeOp : Nat := 4

/-- `RenameOp` — identical to `fsnotify.Rename`. -/
def renameOp : Nat := 8

/-- `ChmodOp` — identical to `fsnotify.Chmod`. -/
def chmodOp : Nat := 16

/-- `fsnotify.Op.Has` (v1.6.0): `o&h == h`.  `Event.Has` and
`Event.HasOp` both reduce to this. -/
def hasOp (o h : Nat) : Bool := o &&& h == h

/-- `time.Second` in nanoseconds (`time.Time` is modelled by an `Int`
nanosecond count; `e.time.Sub(e0.time)` is then integer subtraction). -/
def second : Int := 1000000000

/-- The `watcher.Event` wrapper: fsnotify event (`Name`, `Op`) plus the
arrival time recorded by the watch loop. -/
structure Event where
  name : String
  op : Nat
  time : Int
  deriving DecidableEq

/-- The four `opPairs` of `Event.IsSameWriteEventAs`. -/
def opPairs : List (Nat × Nat) :=
  [(createOp, createOp), (createOp, writeOp), (writeOp, createOp), (writeOp, writeOp)]

/-- `Event.IsSameWriteEventAs(e0)`: folds `e0.Has(p[0]) && e.Has(p[1])`
over `opPairs` with `||`, then requires `elapsedTime < time.Second`. -/
def isSameWriteEventAs (e e0 : Event) : Bool :=
  let consecutiveWriteEvent :=
    opPairs.foldl (fun acc p => acc || (hasOp e0.op p.1 && hasOp e.op p.2)) false
  decide (e.time - e0.time < second) && consecutiveWriteEvent

/-! ### The watch loop's event log (debouncer state) -/

/-- `eventLog`, the `map[string]*Event` of `FSNotifyWatcher.Watch`,
modelled as a function from paths to optional stored events. -/
abbrev EventLog := String → Option Event

/-- The empty `eventLog` created at the top of `Watch`. -/
def emptyLog : EventLog := fun _ => none

/-- The purge sweep at the top of each loop iteration: delete every entry
with `t0.Sub(e.time) > 30*time.Second`. -/
def purgeLog (log : EventLog) (t0 : Int) : EventLog := fun n =>
  match log n with
  | some e => if t0 - e.time > 30 * second then none else some e
  | none => none

/-- The debounce step of `Watch` for one received event (lines building
`newEvent`, consulting `eventLog[e.Name]`, storing the new event): returns
the updated log and the `ignore` flag. -/
def processEvent (log : EventLog) (e : Event) : EventLog × Bool :=
  let ignore :=
    match log e.name with
    | some prevEvent => isSameWriteEventAs e prevEvent
    | none => false
  (fun n => if n = e.name then some e else log n, ignore)

/-! ### Callback dispatch (`for i, callback := range w.callbacks`) -/

/-- A `watcher.Callback` modelled as a state transformer that may report
an error message (`nil` error = `none`).  The logger and context only
carry the error side channel, captured in the returned `Option`. -/
abbrev Callback (σ : Type) := Event → σ → σ × Option String

/-- The dispatch loop of `Watch`: every callback is invoked in order; a
non-nil error is logged (appended to `errLog` with its index) and the
loop simply continues with the next callback. -/
def dispatch {σ : Type} (cbs : List (Callback σ)) (e : Event) (s : σ)
    (errLog : List (Nat × String)) (i : Nat) : σ × List (Nat × String) :=
  match cbs with
  | [] => (s, errLog)
  | cb :: rest =>
    let r := cb e s
    let errLog' := match r.2 with
      | some msg => errLog ++ [(i, msg)]
      | none => errLog
    dispatch rest e r.1 errLog' (i + 1)

/-- The whole watch-loop state visible to the claims: the event log, the
callback-visible state, the accumulated error log, and the trace of
events that were dispatched (not suppressed). -/
structure LoopState (σ : Type) where
  log : EventLog
  user : σ
  errors : List (Nat × String)
  dispatched : List Event

/-- One iteration of the `Watch` loop for a received event: purge sweep
(at the event's arrival time), debounce test, store, and — unless the
event is ignored — dispatch to all callbacks. -/
def watchStep {σ : Type} (cbs : List (Callback σ)) (st : LoopState σ)
    (e : Event) : LoopState σ :=
  let log0 := purgeLog st.log e.time
  let r := processEvent log0 e
  if r.2 then
    { st with log := r.1 }
  else
    let d := dispatch cbs e st.user [] 0
    { log := r.1, user := d.1, errors := st.errors ++ d.2,
      dispatched := st.dispatched ++ [e] }

/-- Running the loop over a finite trace of received events. -/
def watchRun {σ : Type} (cbs : List (Callback σ)) (st : LoopState σ) :
    List Event → LoopState σ
  | [] => st
  | e :: rest => watchRun cbs (watchStep cbs st e) rest

/-- The initial loop state. -/
def initState {σ : Type} (s : σ) : LoopState σ :=
  { log := emptyLog, user := s, errors := [], dispatched := [] }

/-! ### `FSNotifyWatcher.AddCallbacks` -/

/-- `AddCallbacks`: iterate the arguments; a `nil` callback (`none`)
makes it return an error immediately, otherwise each callback is appended
to `w.callbacks`.  Returns the final callback slice and whether an error
was returned. -/
def addCallbacks {α : Type} (acc : List α) : List (Option α) → List α × Bool
  | [] => (acc, false)
  | none :: _ => (acc, true)
  | some cb :: rest => addCallbacks (acc ++ [cb]) rest

/-! ### String normalization (`strings.TrimSpace`, `strings.ToLower`) -/

/-- ASCII whitespace, the subset of `unicode.IsSpace` relevant to the
names handled by this program. -/
def isSpace (c : Char) : Bool := c == ' ' || c == '\t' || c == '\n' || c == '\r'

/-- `strings.TrimSpace`. -/
def trimSpace (s : String) : String :=
  ⟨((s.data.dropWhile isSpace).reverse.dropWhile isSpace).reverse⟩

/-- `strings.ToLower(strings.TrimSpace(m))`, the normalization applied to
every captured attribute value. -/
def normalize (s : String) : String :=
  ⟨(trimSpace s).data.map Char.toLower⟩

/-! ### A small regex engine

Embeds the fragment of Go's `regexp` syntax used by the configured
patterns: literals, character classes, concatenation, alternation,
greedy `+` over a character class (`\d+`), greedy `?`, named capture
groups `(?P<name>...)`, and the `^`/`$` anchors (no-multiline semantics:
beginning / end of text).  Matching is implemented as a backtracking
search returning all matches in Go's leftmost-first priority order:
alternatives are tried left to right, repetitions prefer more
iterations. -/

inductive Rx : Type where
  | eps : Rx
  | char (c : Char) : Rx
  | cls (p : Char → Bool) : Rx
  | seq (a b : Rx) : Rx
  | alt (a b : Rx) : Rx
  | plusCls (p : Char → Bool) : Rx
  | group (name : String) (a : Rx) : Rx
  | bol : Rx
  | eol : Rx

/-- Captures produced so far: `(group name, captured text)`, in the order
the groups were closed during the match. -/
abbrev Caps := List (String × String)

/-- The text captured between positions `i` and `j` of the subject. -/
def capSlice (s : List Char) (i j : Nat) : String := ⟨(s.drop i).take (j - i)⟩

/-- All ways `r` can match the subject `s` starting at position `i`, as
`(end position, captures)` pairs, in backtracking priority order (the
head is the match Go's leftmost-first search commits to at `i`). -/
def matchRx (s : List Char) : Rx → Nat → Caps → List (Nat × Caps)
  | .eps, i, caps => [(i, caps)]
  | .bol, i, caps => if i = 0 then [(i, caps)] else []
  | .eol, i, caps => if i = s.length then [(i, caps)] else []
  | .char c, i, caps =>
    if h : i < s.length then
      (if s.get ⟨i, h⟩ = c then [(i + 1, caps)] else [])
    else []
  | .cls p, i, caps =>
    if h : i < s.length then
      (if p (s.get ⟨i, h⟩) then [(i + 1, caps)] else [])
    else []
  | .seq a b, i, caps =>
    (matchRx s a i caps).flatMap (fun jc => matchRx s b jc.1 jc.2)
  | .alt a b, i, caps =>
    matchRx s a i caps ++ matchRx s b i caps
  | .plusCls p, i, caps =>
    -- greedy `+` over a character class: one-or-more `p`-characters,
    -- longest run first, shortest (one character) last
    let n := ((s.drop i).takeWhile p).length
    (List.range n).map (fun k => (i + n - k, caps))
  | .group n a, i, caps =>
    (matchRx s a i caps).map (fun jc => (jc.1, jc.2 ++ [(n, capSlice s i jc.1)]))

/-- Greedy `?` (prefers the present branch, as Go does). -/
def Rx.opt (a : Rx) : Rx := .alt a .eps

/-- A literal string. -/
def Rx.lit (t : String) : Rx := t.data.foldr (fun c r => .seq (.char c) r) .eps

/-- `\d+`. -/
def Rx.digits : Rx := .plusCls Char.isDigit

/-- `FindStringSubmatch`, scanning candidate start positions left to
right and committing to the backtracking-first match at the earliest
position that matches (Go's leftmost-first semantics); returns the
captures of that match, `none` when nothing matches. -/
def findSubmatchAux (s : List Char) (r : Rx) : List Nat → Option Caps
  | [] => none
  | i :: rest =>
    match matchRx s r i [] with
    | jc :: _ => some jc.2
    | [] => findSubmatchAux s r rest

/-- `regexp.FindStringSubmatch` on the subject `name`. -/
def findSubmatch (r : Rx) (name : String) : Option Caps :=
  findSubmatchAux name.data r (List.range (name.data.length + 1))

/-- `"(" + strings.Join(patterns, ")|(") + ")"`: the joined alternation.
The enclosing unnamed groups contribute no named captures, so they are
not represented. -/
def joinAlts : List Rx → Rx
  | [] => .eps
  | [p] => p
  | p :: rest => .alt p (joinAlts rest)

/-- The spec-side semantics for claim C3, modelled from the spec:
"first-match-wins over an ordered list of independently compiled
patterns" — try each pattern in order on the whole subject, the first
pattern that matches anywhere wins. -/
def findFirstInList (ps : List Rx) (name : String) : Option Caps :=
  match ps with
  | [] => none
  | p :: rest =>
    match findSubmatch p name with
    | some caps => some caps
    | none => findFirstInList rest name

/-! ### Attribute extraction (`cmd/watcher/config.go`) -/

/-- `attrFrameSize`. -/
def attrFrameSize : String := "frame_size"

/-- `attrFrameType`. -/
def attrFrameType : String := "frame_type"

/-- The loop over `SubexpNames()` keeps, for each attribute name, the
captures with `matches[i] != ""`; later non-empty captures overwrite
earlier ones, so the last non-empty capture for `n` is the one stored.
(Each configured pattern declares each name at most once, so at most one
non-empty capture per name ever exists in a match.) -/
def capValue (caps : Caps) (n : String) : Option String :=
  (caps.reverse.find? (fun p => p.1 == n && p.2 != "")).map (·.2)

/-- An `AttributeSet`: the `map[string]string` built by
`getFileAttributes` / `getFolderAttributes` once extraction succeeded. -/
structure AttrSet where
  frame_size : String
  frame_type : String
  deriving DecidableEq

/-- Result of an extraction: the attribute map, or the parse failure that
was surfaced via `showAlert` before returning `nil` (the production
alert sink always returns a `nil` error). -/
inductive ExtractResult : Type where
  | ok (attrs : AttrSet) : ExtractResult
  | parseFailure : ExtractResult
  deriving DecidableEq

/-- `getFileAttributes` on the file name (the caller-side
`strings.TrimSuffix(filepath.Base(filePath), filepath.Ext(filePath))` is
applied before this model, which receives the resulting `fileName`):
both `frame_type` and `frame_size` are mandatory; each found value is
stored as `strings.ToLower(strings.TrimSpace(matches[i]))`. -/
def getFileAttributes (fileName : String) (fileNameRxs : List Rx) : ExtractResult :=
  match findSubmatch (joinAlts fileNameRxs) fileName with
  | none => .parseFailure
  | some caps =>
    match capValue caps attrFrameType, capValue caps attrFrameSize with
    | some t, some sz => .ok { frame_size := normalize sz, frame_type := normalize t }
    | _, _ => .parseFailure

/-- `getFolderAttributes` on the folder's basename: `frame_size` is
mandatory; `frame_type` is optional and defaults to `""`. -/
def getFolderAttributes (dirName : String) (folderNameRxs : List Rx) : ExtractResult :=
  match findSubmatch (joinAlts folderNameRxs) dirName with
  | none => .parseFailure
  | some caps =>
    match capValue caps attrFrameSize with
    | none => .parseFailure
    | some sz =>
      let t := match capValue caps attrFrameType with
        | some t => normalize t
        | none => ""
      .ok { frame_size := normalize sz, frame_type := t }

/-! ### The configured folder-name patterns

The four `folderAttrPatterns` of the repository's test suite, translated
into `Rx` constructor by constructor:

1. `^(?P<frame_size>\d+x\d+)$`
2. `^(?P<frame_size>\d+x\d+) (?P<frame_type>(floating )?((white|gray|black|gold) )?framed)$`
3. `^(?P<frame_type>(floating )?((white|gray|black|gold) )?framed( \d+pc)?) (?P<frame_size>\d+x\d+)$`
4. `^(?P<frame_type>(wood|wood horz|wood vert|wood crx|framed)( \d+pc)?) (?P<frame_size>\d+x\d+)$`
-/

/-- `\d+x\d+`. -/
def sizeRx : Rx := .seq Rx.digits (.seq (.char 'x') Rx.digits)

/-- `(floating )?((white|gray|black|gold) )?framed`. -/
def framedPhraseRx : Rx :=
  .seq (Rx.opt (Rx.lit "floating "))
    (.seq (Rx.opt (.seq (.alt (Rx.lit "white") (.alt (Rx.lit "gray") (.alt (Rx.lit "black") (Rx.lit "gold")))) (.char ' ')))
      (Rx.lit "framed"))

/-- `( \d+pc)?`. -/
def pcSuffixRx : Rx :=
  Rx.opt (.seq (.char ' ') (.seq Rx.digits (Rx.lit "pc")))

/-- Pattern 1. -/
def folderRx1 : Rx :=
  .seq .bol (.seq (.group attrFrameSize sizeRx) .eol)

/-- Pattern 2. -/
def folderRx2 : Rx :=
  .seq .bol (.seq (.group attrFrameSize sizeRx)
    (.seq (.char ' ') (.seq (.group attrFrameType framedPhraseRx) .eol)))

/-- Pattern 3. -/
def folderRx3 : Rx :=
  .seq .bol (.seq (.group attrFrameType (.seq framedPhraseRx pcSuffixRx))
    (.seq (.char ' ') (.seq (.group attrFrameSize sizeRx) .eol)))

/-- Pattern 4. -/
def folderRx4 : Rx :=
  .seq .bol (.seq (.group attrFrameType
      (.seq (.alt (Rx.lit "wood") (.alt (Rx.lit "wood horz") (.alt (Rx.lit "wood vert") (.alt (Rx.lit "wood crx") (Rx.lit "framed"))))) pcSuffixRx))
    (.seq (.char ' ') (.seq (.group attrFrameSize sizeRx) .eol)))

/-- The ordered `folderAttrPatterns` list. -/
def folderAttrPatterns : List Rx := [folderRx1, folderRx2, folderRx3, folderRx4]

/-! ### The mismatch check (`CheckSizeAndFrame`) -/

/-- The alerts `CheckSizeAndFrame` can surface via `showAlert`, in order
of appearance in the code. -/
inductive Alert : Type where
  | invalidFileName : Alert
  | invalidFolderName : Alert
  | unknownFrameType (t : String) : Alert
  | wrongFolder (current correct : String) : Alert
  deriving DecidableEq

/-- `wrongFrameType := true; for _, name := range frameTypeNames {
wrongFrameType = wrongFrameType && dirAttr[attrFrameType] != name }`. -/
def wrongFrameTypeFlag (dirType : String) (frameTypeNames : List String) : Bool :=
  frameTypeNames.foldl (fun w name => w && (dirType != name)) true

/-- The Go map lookup `cfg.Metadata.FrameType2Name[fileAttr[attrFrameType]]`,
with the mapping modelled as an association list. -/
def lookupMapping (mapping : List (String × List String)) (k : String) :
    Option (List String) :=
  (mapping.find? (fun p => p.1 == k)).map (·.2)

/-- The comparison stage of `CheckSizeAndFrame`, entered once both
attribute sets were extracted: the frame-type lookup, the size and type
checks, and the construction of the suggested correct folder name.
Returns the alerts raised (none at all when the folder is correct). -/
def checkAttrs (mapping : List (String × List String))
    (fileAttr dirAttr : AttrSet) (currentDirName : String) : List Alert :=
  match lookupMapping mapping fileAttr.frame_type with
  | none => [.unknownFrameType fileAttr.frame_type]
  | some frameTypeNames =>
    let wrongFrameType := wrongFrameTypeFlag dirAttr.frame_type frameTypeNames
    let wrongFrameSize := dirAttr.frame_size != fileAttr.frame_size
    if wrongFrameSize || wrongFrameType then
      let correctDirName :=
        if !wrongFrameType then
          trimSpace (fileAttr.frame_size ++ " " ++ dirAttr.frame_type)
        else
          String.intercalate " OR "
            (frameTypeNames.map (fun name => trimSpace (fileAttr.frame_size ++ " " ++ name)))
      [.wrongFolder currentDirName correctDirName]
    else
      []

/-- The full `CheckSizeAndFrame` callback body, as the list of alerts it
surfaces for one event (production `showAlert` always returns `nil`, so
after a file-name parse failure the folder extraction still runs; the
`fileAttr == nil || dirAttr == nil` guard then returns before the
comparison stage).  `fileName` is the extension-stripped basename of
`e.Name`; `dirName` the basename of `filepath.Dir(e.Name)`. -/
def checkSizeAndFrame (op : Nat) (fileName dirName : String)
    (fileNameRxs folderNameRxs : List Rx)
    (mapping : List (String × List String)) : List Alert :=
  if !hasOp op createOp && !hasOp op writeOp then []
  else
    let fileRes := getFileAttributes fileName fileNameRxs
    let dirRes := getFolderAttributes dirName folderNameRxs
    match fileRes, dirRes with
    | .parseFailure, .parseFailure => [.invalidFileName, .invalidFolderName]
    | .parseFailure, .ok _ => [.invalidFileName]
    | .ok _, .parseFailure => [.invalidFolderName]
    | .ok fileAttr, .ok dirAttr => checkAttrs mapping fileAttr dirAttr dirName

/-! ### Helper lemmas -/

theorem foldl_and_all {α : Type} (p : α → Bool) (l : List α) (b : Bool) :
    l.foldl (fun w a => w && p a) b = (b && l.all p) := by
  induction l generalizing b with
  | nil => simp
  | cons x xs ih => simp [List.all_cons, ih, Bool.and_assoc]

theorem wrongFrameTypeFlag_iff (dt : String) (l : List String) :
    wrongFrameTypeFlag dt l = true ↔ dt ∉ l := by
  simp only [wrongFrameTypeFlag, foldl_and_all, Bool.true_and, List.all_eq_true,
    bne_iff_ne, ne_eq]
  constructor
  · intro h hmem
    exact h dt hmem rfl
  · intro h x hx heq
    exact h (heq ▸ hx)

theorem isSameWrite_eq (e e0 : Event) :
    isSameWriteEventAs e e0 =
      (decide (e.time - e0.time < second) &&
        ((hasOp e0.op createOp || hasOp e0.op writeOp) &&
         (hasOp e.op createOp || hasOp e.op writeOp))) := by
  simp only [isSameWriteEventAs, opPairs, List.foldl_cons, List.foldl_nil]
  cases hasOp e0.op createOp <;> cases hasOp e0.op writeOp <;>
    cases hasOp e.op createOp <;> cases hasOp e.op writeOp <;> rfl

/-! ### Theorems for the debouncer and watch loop -/

/-- C7: after the debouncer processes any raw event — admitted or
suppressed — the stored record for the event's path is that event, and
the stored record of every other path is unchanged by the processing
step. -/
theorem processEvent_frame :
    ∀ (log : EventLog) (e : Event),
      ((processEvent log e).1 e.name = some e) ∧
      (∀ q : String, q ≠ e.name → (processEvent log e).1 q = log q) := by
  intro log e
  constructor
  · simp [processEvent]
  · intro q hq
    simp [processEvent, hq]

/-- Witness for `processEvent_frame` at a concrete log, event and other
path. -/
theorem processEvent_frame_witness :
    ((processEvent emptyLog ⟨"p", writeOp, 0⟩).1 "p" = some ⟨"p", writeOp, 0⟩) ∧
    ((processEvent emptyLog ⟨"p", writeOp, 0⟩).1 "q" = emptyLog "q") :=
  ⟨(processEvent_frame emptyLog ⟨"p", writeOp, 0⟩).1,
   (processEvent_frame emptyLog ⟨"p", writeOp, 0⟩).2 "q" (by decide)⟩

/-- C2: with a prior stored record for the event's path, the new event is
suppressed iff it arrived strictly less than one second after the stored
record and the (stored op, new op) pair is one of the four
consecutive-write pairs create→create, create→write, write→create,
write→write (each side tested with the bitmask `Has`); concretely, two
write events 400 ms apart dispatch only the first, the same pair 1500 ms
apart dispatches both, and a write followed by a remove 100 ms later
dispatches both. -/
theorem debounce_suppression :
    (∀ (log : EventLog) (e prev : Event), log e.name = some prev →
      ((processEvent log e).2 = true ↔
        (e.time - prev.time < second ∧
          ((hasOp prev.op createOp = true ∧ hasOp e.op createOp = true) ∨
           (hasOp prev.op createOp = true ∧ hasOp e.op writeOp = true) ∨
           (hasOp prev.op writeOp = true ∧ hasOp e.op createOp = true) ∨
           (hasOp prev.op writeOp = true ∧ hasOp e.op writeOp = true))))) ∧
    ((watchRun ([] : List (Callback Unit)) (initState ())
        [⟨"p", writeOp, 0⟩, ⟨"p", writeOp, 400000000⟩]).dispatched
      = [⟨"p", writeOp, 0⟩]) ∧
    ((watchRun ([] : List (Callback Unit)) (initState ())
        [⟨"p", writeOp, 0⟩, ⟨"p", writeOp, 1500000000⟩]).dispatched
      = [⟨"p", writeOp, 0⟩, ⟨"p", writeOp, 1500000000⟩]) ∧
    ((watchRun ([] : List (Callback Unit)) (initState ())
        [⟨"p", writeOp, 0⟩, ⟨"p", removeOp, 100000000⟩]).dispatched
      = [⟨"p", writeOp, 0⟩, ⟨"p", removeOp, 100000000⟩]) := by
  refine ⟨?_, by decide, by decide, by decide⟩
  intro log e prev h
  simp only [processEvent, h, isSameWrite_eq, Bool.and_eq_true, Bool.or_eq_true,
    decide_eq_true_eq]
  tauto

/-- Witness for `debounce_suppression`: the suppression test evaluated on
a concrete stored record and event. -/
theorem debounce_suppression_witness :
    (processEvent (fun n => if n = "p" then some ⟨"p", writeOp, 0⟩ else none)
      ⟨"p", writeOp, 400000000⟩).2 = true :=
  (debounce_suppression.1 _ ⟨"p", writeOp, 400000000⟩ ⟨"p", writeOp, 0⟩
    (by decide)).2 ⟨by decide, Or.inr (Or.inr (Or.inr ⟨by decide, by decide⟩))⟩

/-- C9: the continuation test depends only on the presence of the Create
and Write bits in the two bitmasks — suppression happens iff the events
are less than one second apart, the earlier mask contains Create or
Write, and the later mask contains Create or Write — even when Remove,
Rename or Chmod bits are also set, as the concrete instance with
Write|Chmod followed by Write|Remove shows. -/
theorem isSameWrite_only_create_write_bits :
    (∀ e e0 : Event, isSameWriteEventAs e e0 = true ↔
      (e.time - e0.time < second ∧
        (hasOp e0.op createOp = true ∨ hasOp e0.op writeOp = true) ∧
        (hasOp e.op createOp = true ∨ hasOp e.op writeOp = true))) ∧
    (isSameWriteEventAs ⟨"p", writeOp ||| removeOp, 400000000⟩
      ⟨"p", writeOp ||| chmodOp, 0⟩ = true) := by
  refine ⟨?_, by decide⟩
  intro e e0
  rw [isSameWrite_eq]
  simp only [Bool.and_eq_true, Bool.or_eq_true, decide_eq_true_eq]

/-- Witness for `isSameWrite_only_create_write_bits` at concrete
events. -/
theorem isSameWrite_only_create_write_bits_witness :
    isSameWriteEventAs ⟨"p", createOp, 500000000⟩ ⟨"p", writeOp, 0⟩ = true :=
  (isSameWrite_only_create_write_bits.1 ⟨"p", createOp, 500000000⟩
    ⟨"p", writeOp, 0⟩).2 ⟨by decide, Or.inr (by decide), Or.inl (by decide)⟩

/-! ### Theorems for callback dispatch and registration -/

/-- A concrete callback list for the C8 instance: callback `k` appends
`k` to the state; callback 1 also returns an error. -/
def demoCbs : List (Callback (List Nat)) :=
  [fun _ s => (s ++ [0], none),
   fun _ s => (s ++ [1], some "boom"),
   fun _ s => (s ++ [2], none)]

/-- A concrete event for the C8 instance. -/
def demoEvent : Event := ⟨"p", writeOp, 0⟩

/-- A second concrete event, not suppressed after `demoEvent`. -/
def demoEvent2 : Event := ⟨"p", writeOp, 2000000000⟩

/-- C8: the dispatch loop invokes every registered callback in
registration order, sequentially — the final state is the left fold of
all callback effects, independently of which callbacks returned errors —
and a callback error is only logged: it stops neither the remaining
callbacks for that event (the erring `demoCbs` run applies all three
effects and logs the index-1 error) nor the loop itself (a later event is
still dispatched to all callbacks). -/
theorem dispatch_runs_all_callbacks :
    (∀ (σ : Type) (cbs : List (Callback σ)) (e : Event) (s : σ)
        (errLog : List (Nat × String)) (i : Nat),
      (dispatch cbs e s errLog i).1 = cbs.foldl (fun st cb => (cb e st).1) s) ∧
    (dispatch demoCbs demoEvent [] [] 0 = ([0, 1, 2], [(1, "boom")])) ∧
    ((watchRun demoCbs (initState []) [demoEvent, demoEvent2]).user
      = [0, 1, 2, 0, 1, 2]) ∧
    ((watchRun demoCbs (initState []) [demoEvent, demoEvent2]).errors
      = [(1, "boom"), (1, "boom")]) := by
  refine ⟨?_, by decide, by decide, by decide⟩
  intro σ cbs e
  induction cbs with
  | nil => intro s errLog i; rfl
  | cons cb rest ih =>
    intro s errLog i
    simp only [dispatch, List.foldl_cons]
    exact ih _ _ _

/-- C10: `AddCallbacks` errors iff the argument list contains a nil
callback, and the mutation is not atomic — exactly the callbacks
preceding the first nil have been appended when the error is returned. -/
theorem addCallbacks_behavior :
    (∀ (α : Type) (acc : List α) (args : List (Option α)),
      addCallbacks acc args =
        (acc ++ (args.takeWhile Option.isSome).filterMap id,
         args.any Option.isNone)) ∧
    (∀ (α : Type) (args : List (Option α)),
      args.any Option.isNone = true ↔ none ∈ args) ∧
    (addCallbacks ([10] : List Nat) [some 11, none, some 12]
      = ([10, 11], true)) := by
  refine ⟨?_, ?_, by decide⟩
  · intro α acc args
    induction args generalizing acc with
    | nil => simp [addCallbacks]
    | cons a rest ih =>
      cases a with
      | none => simp [addCallbacks, List.takeWhile]
      | some cb => simp [addCallbacks, List.takeWhile, ih]
  · intro α args
    simp [List.any_eq_true, Option.isNone_iff_eq_none]

/-! ### Theorems for the mismatch check -/

/-- C1: for a file attribute set whose frame-type abbreviation is present
in the mapping, the check reports a clean match (no alert) iff the
folder's `frame_size` equals the file's `frame_size` and the folder's
`frame_type` equals at least one member of the candidate set; the
wrong-type flag is asserted exactly when the folder's type equals none of
the candidates. -/
theorem check_clean_match :
    ∀ (mapping : List (String × List String)) (fileAttr dirAttr : AttrSet)
      (dirName : String) (candidates : List String),
      lookupMapping mapping fileAttr.frame_type = some candidates →
      ((checkAttrs mapping fileAttr dirAttr dirName = [] ↔
          dirAttr.frame_size = fileAttr.frame_size ∧
          dirAttr.frame_type ∈ candidates) ∧
       (wrongFrameTypeFlag dirAttr.frame_type candidates = true ↔
          dirAttr.frame_type ∉ candidates)) := by
  intro mapping fileAttr dirAttr dirName candidates h
  refine ⟨?_, wrongFrameTypeFlag_iff _ _⟩
  simp only [checkAttrs, h]
  by_cases hs : dirAttr.frame_size = fileAttr.frame_size
  · by_cases ht : dirAttr.frame_type ∈ candidates
    · have hf : wrongFrameTypeFlag dirAttr.frame_type candidates = false := by
        rcases hb : wrongFrameTypeFlag dirAttr.frame_type candidates
        · rfl
        · exact absurd ((wrongFrameTypeFlag_iff _ _).1 hb) (not_not_intro ht)
      simp [hs, hf, ht]
    · have hf : wrongFrameTypeFlag dirAttr.frame_type candidates = true :=
        (wrongFrameTypeFlag_iff _ _).2 ht
      simp [hs, hf, ht]
  · have hb : (dirAttr.frame_size != fileAttr.frame_size) = true := by
      simpa [bne_iff_ne] using hs
    simp [hb, hs]

/-- Witness for `check_clean_match`: end-to-end scenario 1 of the spec,
folder `framed 2pc 11x14` with file attributes `fr_2pc`/`11x14` under the
mapping `fr_2pc → [framed 2pc]`, is a clean match. -/
theorem check_clean_match_witness :
    checkAttrs [("fr_2pc", ["framed 2pc"])] ⟨"11x14", "fr_2pc"⟩
      ⟨"11x14", "framed 2pc"⟩ "framed 2pc 11x14" = [] :=
  ((check_clean_match [("fr_2pc", ["framed 2pc"])] ⟨"11x14", "fr_2pc"⟩
      ⟨"11x14", "framed 2pc"⟩ "framed 2pc 11x14" ["framed 2pc"]
      (by decide)).1).2 ⟨rfl, by decide⟩

/-- C5: whenever the type check fails (whatever the size check says), the
suggested correct folder name is `"<file frame_size> <candidate>"` for
every candidate, each trimmed of surrounding whitespace, joined with
`" OR "` in candidate-set order; in particular folder `12x12` with file
`fr`/`11x14` under `fr → [black framed, framed]` yields
`11x14 black framed OR 11x14 framed`. -/
theorem wrong_type_suggestion :
    (∀ (mapping : List (String × List String)) (fileAttr dirAttr : AttrSet)
        (dirName : String) (candidates : List String),
      lookupMapping mapping fileAttr.frame_type = some candidates →
      dirAttr.frame_type ∉ candidates →
      checkAttrs mapping fileAttr dirAttr dirName =
        [.wrongFolder dirName (String.intercalate " OR "
          (candidates.map (fun name =>
            trimSpace (fileAttr.frame_size ++ " " ++ name))))]) ∧
    (checkAttrs [("fr", ["black framed", "framed"])] ⟨"11x14", "fr"⟩
        ⟨"12x12", ""⟩ "12x12"
      = [.wrongFolder "12x12" "11x14 black framed OR 11x14 framed"]) := by
  refine ⟨?_, by decide⟩
  intro mapping fileAttr dirAttr dirName candidates h ht
  have hf : wrongFrameTypeFlag dirAttr.frame_type candidates = true :=
    (wrongFrameTypeFlag_iff _ _).2 ht
  simp [checkAttrs, h, hf]

/-- Witness for `wrong_type_suggestion` at a concrete mapping where both
candidates survive into the suggestion. -/
theorem wrong_type_suggestion_witness :
    checkAttrs [("fr", ["black framed", "framed"])] ⟨"16x20", "fr"⟩
        ⟨"16x20", "wood"⟩ "wood 16x20"
      = [.wrongFolder "wood 16x20" "16x20 black framed OR 16x20 framed"] :=
  wrong_type_suggestion.1 [("fr", ["black framed", "framed"])]
    ⟨"16x20", "fr"⟩ ⟨"16x20", "wood"⟩ "wood 16x20" ["black framed", "framed"]
    (by decide) (by decide)

/-- C4 counterexample: for an admitted write event whose file name fails
extraction while the folder name fails extraction too, `CheckSizeAndFrame`
surfaces *two* alerts — the file parse failure and then the folder parse
failure — so processing does not stop at the file-name `ParseFailure` and
a further alert is raised, contradicting the claim that only the file
parse-failure alert appears. -/
theorem parse_failure_two_alerts :
    checkSizeAndFrame writeOp "zzz" "zzz"
        [Rx.group attrFrameType (Rx.lit "t")] folderAttrPatterns []
      = [.invalidFileName, .invalidFolderName] ∧
    ([.invalidFileName, .invalidFolderName] : List Alert)
      ≠ [.invalidFileName] := by
  constructor
  · decide
  · decide

/-- C4 amended: after a file-name `ParseFailure` on an admitted event,
the failure is surfaced, no mismatch detection (frame-type lookup,
size/type comparison) is performed and no unknown-type or wrong-folder
alert is raised — but the folder-name extraction still runs and may
surface its own parse-failure alert. -/
theorem parse_failure_no_mismatch_detection :
    ∀ (op : Nat) (fileName dirName : String) (fileRxs dirRxs : List Rx)
      (mapping : List (String × List String)),
      (hasOp op createOp = true ∨ hasOp op writeOp = true) →
      getFileAttributes fileName fileRxs = .parseFailure →
      ((checkSizeAndFrame op fileName dirName fileRxs dirRxs mapping
         = .invalidFileName ::
            (match getFolderAttributes dirName dirRxs with
             | .parseFailure => [.invalidFolderName]
             | .ok _ => [])) ∧
       (∀ a ∈ checkSizeAndFrame op fileName dirName fileRxs dirRxs mapping,
         (∀ t, a ≠ .unknownFrameType t) ∧ (∀ c cr, a ≠ .wrongFolder c cr))) := by
  intro op fileName dirName fileRxs dirRxs mapping hop hfile
  have hcond : (!hasOp op createOp && !hasOp op writeOp) = false := by
    rcases hop with h | h <;> simp [h]
  have hmain : checkSizeAndFrame op fileName dirName fileRxs dirRxs mapping
      = .invalidFileName ::
         (match getFolderAttributes dirName dirRxs with
          | .parseFailure => [.invalidFolderName]
          | .ok _ => []) := by
    unfold checkSizeAndFrame
    rw [hcond, hfile]
    rcases getFolderAttributes dirName dirRxs with _ | _ <;> simp
  refine ⟨hmain, ?_⟩
  intro a ha
  rw [hmain] at ha
  rcases hres : getFolderAttributes dirName dirRxs with attrs | _ <;>
    rw [hres] at ha <;> simp only [List.mem_cons, List.mem_singleton,
      List.not_mem_nil, or_false] at ha
  · rcases ha with rfl
    exact ⟨fun t => by simp, fun c cr => by simp⟩
  · rcases ha with rfl | rfl <;>
      exact ⟨fun t => by simp, fun c cr => by simp⟩

/-- Witness for `parse_failure_no_mismatch_detection` at a concrete
failing file name whose folder name parses fine: only the file
parse-failure alert appears. -/
theorem parse_failure_no_mismatch_detection_witness :
    checkSizeAndFrame writeOp "zzz" "12x12"
        [Rx.group attrFrameType (Rx.lit "t")] folderAttrPatterns []
      = [.invalidFileName] := by
  have h := (parse_failure_no_mismatch_detection writeOp "zzz" "12x12"
    [Rx.group attrFrameType (Rx.lit "t")] folderAttrPatterns []
    (Or.inr (by decide)) (by decide)).1
  rw [h]
  have hdir : getFolderAttributes "12x12" folderAttrPatterns
      = .ok ⟨"12x12", ""⟩ := by decide
  rw [hdir]

/-! ### Joined alternation versus first-match-wins (claim C3) -/

/-- A pattern that is anchored at the beginning of the text (its source
starts with `^`), so it can only match at position 0. -/
def isAnchored : Rx → Bool
  | .seq .bol _ => true
  | _ => false

/-- The captures of the match the scan commits to: head of the priority
list. -/
def headCaps : List (Nat × Caps) → Option Caps
  | [] => none
  | jc :: _ => some jc.2

theorem headCaps_append (l1 l2 : List (Nat × Caps)) :
    headCaps (l1 ++ l2) = match headCaps l1 with
      | some c => some c
      | none => headCaps l2 := by
  cases l1 <;> rfl

theorem matchRx_anchored_pos (r : Rx) (h : isAnchored r = true) (s : List Char)
    (i : Nat) (hi : i ≠ 0) (caps : Caps) : matchRx s r i caps = [] := by
  cases r
  case seq a b =>
    cases a
    case bol => simp [matchRx, hi]
    all_goals exact absurd h (by simp [isAnchored])
  all_goals exact absurd h (by simp [isAnchored])

theorem flatMap_nil_of {α β : Type} (l : List α) (f : α → List β)
    (h : ∀ a ∈ l, f a = []) : l.flatMap f = [] := by
  induction l with
  | nil => rfl
  | cons a rest ih =>
    rw [List.flatMap_cons, h a (List.mem_cons_self a rest),
      ih (fun b hb => h b (List.mem_cons_of_mem a hb))]
    rfl

theorem findSubmatchAux_nil (s : List Char) (r : Rx) (is : List Nat)
    (h : ∀ i ∈ is, matchRx s r i [] = []) : findSubmatchAux s r is = none := by
  induction is with
  | nil => rfl
  | cons i rest ih =>
    have hi := h i (List.mem_cons_self i rest)
    simp only [findSubmatchAux, hi]
    exact ih (fun j hj => h j (List.mem_cons_of_mem i hj))

theorem findSubmatch_eq_headCaps (r : Rx) (name : String)
    (h : ∀ i, i ≠ 0 → matchRx name.data r i [] = []) :
    findSubmatch r name = headCaps (matchRx name.data r 0 []) := by
  unfold findSubmatch
  rw [List.range_succ_eq_map]
  cases hm : matchRx name.data r 0 [] with
  | nil =>
    simp only [findSubmatchAux, hm, headCaps]
    exact findSubmatchAux_nil _ _ _ (fun i hi => by
      rcases List.mem_map.1 hi with ⟨j, _, rfl⟩
      exact h _ (Nat.succ_ne_zero j))
  | cons jc rest => simp only [findSubmatchAux, hm, headCaps]

theorem joinAlts_flatMap (ps : List Rx) (hne : ps ≠ []) (s : List Char)
    (i : Nat) (caps : Caps) :
    matchRx s (joinAlts ps) i caps = ps.flatMap (fun p => matchRx s p i caps) := by
  induction ps with
  | nil => exact absurd rfl hne
  | cons p rest ih =>
    cases rest with
    | nil => simp [joinAlts]
    | cons q rest2 =>
      simp only [joinAlts, matchRx, List.flatMap_cons]
      rw [ih (by simp), List.flatMap_cons]

/-- C3 counterexample: for the (unanchored) ordered patterns
`[(?P<frame_type>b), (?P<frame_type>a)]` on the name `"ab"`, the
string-joined alternation `(b)|(a)` captures `frame_type = "a"` (the
leftmost match in the text wins), while trying the patterns left-to-right
as independent regexes captures `frame_type = "b"` (the first pattern
matches at position 1 and wins), so the two semantics do not behave
identically. -/
theorem joined_vs_list_divergence :
    (findSubmatch (joinAlts [.group attrFrameType (.char 'b'),
        .group attrFrameType (.char 'a')]) "ab"
      = some [(attrFrameType, "a")]) ∧
    (findFirstInList [.group attrFrameType (.char 'b'),
        .group attrFrameType (.char 'a')] "ab"
      = some [(attrFrameType, "b")]) ∧
    (findSubmatch (joinAlts [.group attrFrameType (.char 'b'),
        .group attrFrameType (.char 'a')]) "ab"
      ≠ findFirstInList [.group attrFrameType (.char 'b'),
          .group attrFrameType (.char 'a')] "ab") := by
  refine ⟨by decide, by decide, by decide⟩

/-- C3 amended: for a nonempty pattern list in which every pattern is
anchored at the start of the name (`^...`), as all of this repository's
configured patterns are, the string-joined alternation behaves
identically to trying the patterns left-to-right as independently
compiled regexes with the first overall match winning (same match
outcome and the same captures, hence the same `frame_type` /
`frame_size` values). -/
theorem joined_alternation_eq_first_match :
    ∀ (ps : List Rx) (name : String), ps ≠ [] →
      (∀ p ∈ ps, isAnchored p = true) →
      findSubmatch (joinAlts ps) name = findFirstInList ps name := by
  intro ps name
  induction ps with
  | nil => intro h _; exact absurd rfl h
  | cons p rest ih =>
    intro _ hall
    have hp : isAnchored p = true := hall p (List.mem_cons_self p rest)
    have hpz : ∀ i, i ≠ 0 → matchRx name.data p i [] = [] :=
      fun i hi => matchRx_anchored_pos p hp name.data i hi []
    have hpfind : findSubmatch p name = headCaps (matchRx name.data p 0 []) :=
      findSubmatch_eq_headCaps p name hpz
    cases rest with
    | nil =>
      show findSubmatch p name = findFirstInList [p] name
      simp only [findFirstInList]
      cases h : findSubmatch p name <;> rfl
    | cons q rest2 =>
      have hall2 : ∀ r ∈ q :: rest2, isAnchored r = true :=
        fun r hr => hall r (List.mem_cons_of_mem p hr)
      have hzs : ∀ r, r ∈ (p :: q :: rest2 : List Rx) →
          ∀ i, i ≠ 0 → matchRx name.data r i [] = [] :=
        fun r hr i hi => matchRx_anchored_pos r (hall r hr) name.data i hi []
      have hjz : ∀ i, i ≠ 0 →
          matchRx name.data (joinAlts (p :: q :: rest2)) i [] = [] := by
        intro i hi
        rw [joinAlts_flatMap _ (by simp)]
        exact flatMap_nil_of _ _ (fun r hr => hzs r hr i hi)
      have hjz2 : ∀ i, i ≠ 0 →
          matchRx name.data (joinAlts (q :: rest2)) i [] = [] := by
        intro i hi
        rw [joinAlts_flatMap _ (by simp)]
        exact flatMap_nil_of _ _
          (fun r hr => hzs r (List.mem_cons_of_mem p hr) i hi)
      rw [findSubmatch_eq_headCaps _ name hjz,
        joinAlts_flatMap _ (by simp) _ 0 [], List.flatMap_cons, headCaps_append]
      show (match headCaps (matchRx name.data p 0 []) with
        | some c => some c
        | none => headCaps ((q :: rest2).flatMap
            (fun r => matchRx name.data r 0 []))) = _
      simp only [findFirstInList, hpfind]
      cases hm : headCaps (matchRx name.data p 0 []) with
      | some c => rfl
      | none =>
        have : headCaps ((q :: rest2).flatMap (fun r => matchRx name.data r 0 []))
            = findFirstInList (q :: rest2) name := by
          rw [← joinAlts_flatMap _ (by simp) _ 0 [],
            ← findSubmatch_eq_headCaps _ name hjz2]
          exact ih (by simp) hall2
        rw [this]
        rfl

/-- Witness for `joined_alternation_eq_first_match` at the configured
folder patterns on a concrete name. -/
theorem joined_alternation_eq_first_match_witness :
    findSubmatch (joinAlts folderAttrPatterns) "12x12"
      = findFirstInList folderAttrPatterns "12x12" :=
  joined_alternation_eq_first_match folderAttrPatterns "12x12"
    (by unfold folderAttrPatterns; exact List.cons_ne_nil _ _)
    (by decide)

/-! ### Captures are literal substrings of the subject -/

/-- Every capture in `caps` is a literal contiguous substring of the
subject `s`. -/
def capsSound (s : List Char) (caps : Caps) : Prop :=
  ∀ p ∈ caps, ∃ a b, p.2 = capSlice s a b

theorem capsSound_nil (s : List Char) : capsSound s [] := by
  intro p hp
  cases hp

theorem matchRx_caps_sound (s : List Char) (r : Rx) :
    ∀ (i : Nat) (caps : Caps), capsSound s caps →
      ∀ jc ∈ matchRx s r i caps, capsSound s jc.2 := by
  induction r with
  | eps =>
    intro i caps hc jc hjc
    simp only [matchRx, List.mem_singleton] at hjc
    rw [hjc]
    exact hc
  | bol =>
    intro i caps hc jc hjc
    simp only [matchRx] at hjc
    split at hjc
    · simp only [List.mem_singleton] at hjc
      rw [hjc]
      exact hc
    · cases hjc
  | eol =>
    intro i caps hc jc hjc
    simp only [matchRx] at hjc
    split at hjc
    · simp only [List.mem_singleton] at hjc
      rw [hjc]
      exact hc
    · cases hjc
  | char c =>
    intro i caps hc jc hjc
    simp only [matchRx] at hjc
    split at hjc
    · split at hjc
      · simp only [List.mem_singleton] at hjc
        rw [hjc]
        exact hc
      · cases hjc
    · cases hjc
  | cls p =>
    intro i caps hc jc hjc
    simp only [matchRx] at hjc
    split at hjc
    · split at hjc
      · simp only [List.mem_singleton] at hjc
        rw [hjc]
        exact hc
      · cases hjc
    · cases hjc
  | seq a b iha ihb =>
    intro i caps hc jc hjc
    simp only [matchRx] at hjc
    rcases List.mem_flatMap.1 hjc with ⟨x, hx, hjx⟩
    exact ihb _ _ (iha _ _ hc x hx) jc hjx
  | alt a b iha ihb =>
    intro i caps hc jc hjc
    simp only [matchRx, List.mem_append] at hjc
    rcases hjc with h | h
    · exact iha _ _ hc jc h
    · exact ihb _ _ hc jc h
  | plusCls p =>
    intro i caps hc jc hjc
    simp only [matchRx, List.mem_map] at hjc
    rcases hjc with ⟨k, _, rfl⟩
    exact hc
  | group n a iha =>
    intro i caps hc jc hjc
    simp only [matchRx, List.mem_map] at hjc
    rcases hjc with ⟨x, hx, rfl⟩
    intro p hp
    rcases List.mem_append.1 hp with h | h
    · exact iha _ _ hc x hx p h
    · simp only [List.mem_singleton] at h
      exact ⟨i, x.1, by rw [h]⟩

theorem findSubmatchAux_sound (s : List Char) (r : Rx) (is : List Nat)
    (caps : Caps) (h : findSubmatchAux s r is = some caps) : capsSound s caps := by
  induction is with
  | nil => simp [findSubmatchAux] at h
  | cons i rest ih =>
    simp only [findSubmatchAux] at h
    rcases hm : matchRx s r i [] with _ | ⟨jc, tail⟩
    · rw [hm] at h
      exact ih h
    · rw [hm] at h
      injection h with h'
      rw [← h']
      exact matchRx_caps_sound s r i [] (capsSound_nil s) jc
        (by rw [hm]; exact List.mem_cons_self jc tail)

theorem findSubmatch_caps_sound (r : Rx) (name : String) (caps : Caps)
    (h : findSubmatch r name = some caps) : capsSound name.data caps :=
  findSubmatchAux_sound name.data r _ caps h

theorem capValue_sound (s : List Char) (caps : Caps) (hc : capsSound s caps)
    (n v : String) (h : capValue caps n = some v) : ∃ a b, v = capSlice s a b := by
  unfold capValue at h
  rcases hf : caps.reverse.find? (fun p => p.1 == n && p.2 != "") with _ | p
  · rw [hf] at h
    cases h
  · rw [hf] at h
    injection h with h'
    have hmem : p ∈ caps := List.mem_reverse.1 (List.mem_of_find?_eq_some hf)
    rcases hc p hmem with ⟨a, b, hab⟩
    exact ⟨a, b, by rw [← h']; exact hab⟩

/-- The `testCases` table of `TestFolderAttributes` — folder name,
expected `frame_type`, expected `frame_size` — translated row for row
from the repository's test file. -/
def folderTestCases : List (String × String × String) :=
  [("framed 2pc 11x14", "framed 2pc", "11x14"),
   ("framed 2pc 12x12", "framed 2pc", "12x12"),
   ("framed 3pc 11x14", "framed 3pc", "11x14"),
   ("framed 3pc 12x12", "framed 3pc", "12x12"),
   ("framed 4pc 11x14", "framed 4pc", "11x14"),
   ("framed 4pc 12x12", "framed 4pc", "12x12"),
   ("framed 9pc 11x14", "framed 9pc", "11x14"),
   ("framed 9pc 12x12", "framed 9pc", "12x12"),
   ("framed 11x14", "framed", "11x14"),
   ("framed 12x12", "framed", "12x12"),
   ("gray framed 2pc 12x12", "gray framed 2pc", "12x12"),
   ("gray framed 3pc 11x14", "gray framed 3pc", "11x14"),
   ("gray framed 4pc 11x14", "gray framed 4pc", "11x14"),
   ("gray framed 4pc 12x12", "gray framed 4pc", "12x12"),
   ("gray framed 9pc 11x14", "gray framed 9pc", "11x14"),
   ("gray framed 9pc 12x12", "gray framed 9pc", "12x12"),
   ("gray framed 11x14", "gray framed", "11x14"),
   ("gray framed 12x12", "gray framed", "12x12"),
   ("white framed 2pc 11x14", "white framed 2pc", "11x14"),
   ("white framed 2pc 12x12", "white framed 2pc", "12x12"),
   ("white framed 3pc 11x14", "white framed 3pc", "11x14"),
   ("white framed 4pc 12x12", "white framed 4pc", "12x12"),
   ("white framed 4pc 11x14", "white framed 4pc", "11x14"),
   ("white framed 9pc 11x14", "white framed 9pc", "11x14"),
   ("white framed 11x14", "white framed", "11x14"),
   ("white framed 12x12", "white framed", "12x12"),
   ("wood 2pc 7x17", "wood 2pc", "7x17"),
   ("wood 2pc 10x15", "wood 2pc", "10x15"),
   ("wood 2pc 12x12", "wood 2pc", "12x12"),
   ("wood 2pc 13x19", "wood 2pc", "13x19"),
   ("wood 3pc 7x17", "wood 3pc", "7x17"),
   ("wood 3pc 10x15", "wood 3pc", "10x15"),
   ("wood 3pc 11x17", "wood 3pc", "11x17"),
   ("wood 3pc 12x12", "wood 3pc", "12x12"),
   ("wood 3pc 13x19", "wood 3pc", "13x19"),
   ("wood 4pc 10x15", "wood 4pc", "10x15"),
   ("wood 4pc 12x12", "wood 4pc", "12x12"),
   ("wood 12x12", "wood", "12x12"),
   ("wood crx 12x12", "wood crx", "12x12"),
   ("wood horz 7x17", "wood horz", "7x17"),
   ("wood horz 10x15", "wood horz", "10x15"),
   ("wood horz 13x19", "wood horz", "13x19"),
   ("wood vert 7x17", "wood vert", "7x17"),
   ("wood vert 10x15", "wood vert", "10x15"),
   ("wood vert 13x19", "wood vert", "13x19"),
   ("10x21", "", "10x21"),
   ("10x24", "", "10x24"),
   ("10x24 black framed", "black framed", "10x24"),
   ("10x24 white framed", "white framed", "10x24"),
   ("11x14", "", "11x14"),
   ("12x12", "", "12x12"),
   ("13x30", "", "13x30"),
   ("13x30 black framed", "black framed", "13x30"),
   ("13x30 gray framed", "gray framed", "13x30"),
   ("13x30 white framed", "white framed", "13x30"),
   ("16x20 floating black framed", "floating black framed", "16x20"),
   ("16x20 floating gold framed", "floating gold framed", "16x20"),
   ("16x20 floating gray framed", "floating gray framed", "16x20"),
   ("16x20 gray framed", "gray framed", "16x20"),
   ("16x20 white framed", "white framed", "16x20"),
   ("16x24", "", "16x24"),
   ("17x17", "", "17x17"),
   ("17x17 black framed", "black framed", "17x17"),
   ("17x17 gray framed", "gray framed", "17x17"),
   ("17x17 white framed", "white framed", "17x17"),
   ("18x18", "", "18x18"),
   ("20x48", "", "20x48"),
   ("24x24", "", "24x24"),
   ("24x24 black framed", "black framed", "24x24"),
   ("24x24 white framed", "white framed", "24x24"),
   ("24x24 gray framed", "gray framed", "24x24"),
   ("24x30", "", "24x30"),
   ("24x30 black framed", "black framed", "24x30"),
   ("24x30 floating black framed", "floating black framed", "24x30"),
   ("24x30 floating gold framed", "floating gold framed", "24x30"),
   ("24x30 floating gray framed", "floating gray framed", "24x30"),
   ("24x30 white framed", "white framed", "24x30"),
   ("30x30", "", "30x30"),
   ("30x40", "", "30x40"),
   ("36x36", "", "36x36"),
   ("36x48", "", "36x48")]

/-- C6: folder-name extraction.  When the joined configured pattern
matches and yields a (necessarily non-empty) `frame_size` capture `v`,
extraction succeeds with `frame_size` the lowercased, trimmed `v` — and
`v` is a literal contiguous substring of the name — and with
`frame_type` the lowercased, trimmed type capture, itself a literal
substring of the name, or the empty string when no type capture is
present; when no `frame_size` capture is produced (in particular when no
pattern matches) extraction fails with a parse failure.  The repository's
whole `TestFolderAttributes` table evaluates accordingly: the extracted
`frame_size` is the literal size substring and the extracted `frame_type`
the literal type phrase (empty when absent). -/
theorem folder_extraction_behavior :
    (∀ (name : String) (caps : Caps) (v : String),
        findSubmatch (joinAlts folderAttrPatterns) name = some caps →
        capValue caps attrFrameSize = some v →
        (getFolderAttributes name folderAttrPatterns =
          .ok ⟨normalize v,
            match capValue caps attrFrameType with
            | some w => normalize w
            | none => ""⟩) ∧
        (∃ a b, v = capSlice name.data a b) ∧
        (∀ w, capValue caps attrFrameType = some w →
           ∃ a b, w = capSlice name.data a b)) ∧
    (∀ (name : String) (caps : Caps),
        findSubmatch (joinAlts folderAttrPatterns) name = some caps →
        capValue caps attrFrameSize = none →
        getFolderAttributes name folderAttrPatterns = .parseFailure) ∧
    (∀ (name : String),
        findSubmatch (joinAlts folderAttrPatterns) name = none →
        getFolderAttributes name folderAttrPatterns = .parseFailure) ∧
    (folderTestCases.all (fun tc =>
        getFolderAttributes tc.1 folderAttrPatterns
          == .ok ⟨tc.2.2, tc.2.1⟩) = true) ∧
    (getFolderAttributes "framed" folderAttrPatterns = .parseFailure) := by
  refine ⟨?_, ?_, ?_, by decide, by decide⟩
  · intro name caps v hfind hsize
    have hsound : capsSound name.data caps :=
      findSubmatch_caps_sound _ name caps hfind
    refine ⟨?_, capValue_sound _ _ hsound _ _ hsize, ?_⟩
    · simp only [getFolderAttributes, hfind, hsize]
    · intro w hw
      exact capValue_sound _ _ hsound _ _ hw
  · intro name caps hfind hsize
    simp only [getFolderAttributes, hfind, hsize]
  · intro name hfind
    simp only [getFolderAttributes, hfind]

/-- Witness for `folder_extraction_behavior` at the concrete folder name
`12x12`. -/
theorem folder_extraction_behavior_witness :
    (getFolderAttributes "12x12" folderAttrPatterns = .ok ⟨"12x12", ""⟩) ∧
    (∃ a b, "12x12" = capSlice "12x12".data a b) := by
  have h := folder_extraction_behavior.1 "12x12" [(attrFrameSize, "12x12")]
    "12x12" (by decide) (by decide)
  refine ⟨?_, h.2.1⟩
  rw [h.1]
  decide

end Folderwatcher
